import Mathlib

/-!
Verification development for the Travel-Photos repository.

The embedding models the three image sources and the request handler of
`src/api/tripadvisor.js` (duplicated in `src/unnamed/part_000` and
`src/unnamed/part_001`):

* `searchPhotos` — the client-side selection over the curated (Pexels) API
  response: filter to large photos, stable sort by descending area, two-tier
  backfill to exactly five results.
* `fetchTripAdvisorImages` — the scrape source: candidate-link resolution over
  the anchors of the search page, then image extraction, normalization and
  deduplication over the img tags of the detail page.
* `fetchWikipediaImages` — the encyclopedia fallback source.
* `handleRequest` — the HTTP handler: query trimming and rejection, the
  scrape → wikipedia fallback chain, error absorption and surfacing.

HTML documents are modelled as the parsed element lists the code iterates
(anchors with href and text; img tags with src, data-src and alt), and each
network fetch as an outcome value supplied by the environment.  String
operations are modelled over `List Char` by structural recursion so that every
definition evaluates inside the kernel; JavaScript's `toLowerCase`, `trim` and
regexes are modelled for the ASCII range the code's patterns use.
-/

/-- ASCII lowercasing of one character, as JavaScript `toLowerCase` acts on
the ASCII range used by the code's queries and patterns. -/
def lowerChar (c : Char) : Char :=
  if 'A' ≤ c ∧ c ≤ 'Z' then Char.ofNat (c.toNat + 32) else c

/-- String lowercasing, character by character. -/
def lowerStr (s : String) : String := String.mk (s.data.map lowerChar)

/-- Whether `needle` occurs as a contiguous sublist of the second argument.
Models JavaScript's `String.prototype.includes` and a regex made of literal
characters. -/
def hasSubList (needle : List Char) : List Char → Bool
  | [] => needle.isEmpty
  | c :: t => needle.isPrefixOf (c :: t) || hasSubList needle t

/-- Substring containment on strings. -/
def strHas (hay needle : String) : Bool := hasSubList needle.data hay.data

/-- Emptiness of a string, via its character list. -/
def strEmpty (s : String) : Bool := s.data.isEmpty

/-- The whitespace characters JavaScript `trim` strips (ASCII range). -/
def isWS (c : Char) : Bool :=
  c == ' ' || c == '\t' || c == '\n' || c == '\r' || c == '\x0b' || c == '\x0c'

/-- JavaScript `String.prototype.trim` (ASCII whitespace model). -/
def trimStr (s : String) : String :=
  String.mk (((s.data.dropWhile isWS).reverse.dropWhile isWS).reverse)

/-- Whether the string ends with `tail`. -/
def strEndsWith (s tail : String) : Bool :=
  tail.data.reverse.isPrefixOf s.data.reverse

/-- Replace the first occurrence of `needle` by `repl`, as JavaScript
`replace` with a non-global literal regex. -/
def replaceFirstList (hay needle repl : List Char) : List Char :=
  match hay with
  | [] => []
  | c :: t =>
    if needle.isPrefixOf (c :: t) then repl ++ (c :: t).drop needle.length
    else c :: replaceFirstList t needle repl

/-- If the list starts with the pattern of the width/height directive regex
(a slash, `-w`, digits, `-h`, digits, a slash), return the remainder
beginning at the pattern's trailing slash (which the regex replacement keeps
as the inserted slash). -/
def matchWHAt (l : List Char) : Option (List Char) :=
  match l with
  | '/' :: '-' :: 'w' :: rest =>
    if (rest.takeWhile Char.isDigit).isEmpty then none
    else
      match rest.dropWhile Char.isDigit with
      | '-' :: 'h' :: rest2 =>
        if (rest2.takeWhile Char.isDigit).isEmpty then none
        else
          match rest2.dropWhile Char.isDigit with
          | '/' :: tail => some ('/' :: tail)
          | _ => none
      | _ => none
  | _ => none

/-- Replace the first match of the width/height directive pattern by a
slash: scan left to right and, at the first position where the pattern
matches, drop the matched segment up to its trailing slash. -/
def stripWHList (l : List Char) : List Char :=
  match l with
  | [] => []
  | c :: t =>
    match matchWHAt (c :: t) with
    | some r => r
    | none => c :: stripWHList t

/-- The src normalization of the image extractor: replace the first
occurrence of `photo-s/` by `photo-l/`, then strip the first width/height
directive segment. -/
def normalizeSrc (s : String) : String :=
  String.mk (stripWHList (replaceFirstList s.data "photo-s/".data "photo-l/".data))

/-- Insertion into an order-preserving set: models adding to a JavaScript
`Set`, which keeps the first occurrence and ignores later duplicates. -/
def insertNew {α : Type} [DecidableEq α] (acc : List α) (x : α) : List α :=
  if x ∈ acc then acc else acc ++ [x]

/-- Keep-first deduplication: the contents of an insertion-ordered set, in
insertion order.  Stated from the spec's words "first occurrence wins, later
duplicates ignored, preserving first-seen order". -/
def dedupKeepFirst {α : Type} [DecidableEq α] : List α → List α
  | [] => []
  | x :: xs => x :: dedupKeepFirst (xs.filter (fun y => y ≠ x))
termination_by l => l.length
decreasing_by
  simp only [List.length_cons]
  exact Nat.lt_succ_of_le (List.length_filter_le _ _)

/-- A curated (Pexels) photo as the selection logic reads it: width and
height drive filtering and ranking; `id` stands for the fields the selection
carries along but never inspects (url, photographer, src variants). -/
structure Photo where
  id : Nat
  width : Nat
  height : Nat
deriving DecidableEq

/-- Pixel area of a photo, the sort key of `searchPhotos`. -/
def area (p : Photo) : Nat := p.width * p.height

/-- The comparator-induced total order on index-tagged photos: larger area
first; on equal areas, the smaller original position first.  JavaScript's
`sort` is stable, so sorting by the comparator
`(a, b) => b.width * b.height - a.width * a.height` orders the array exactly
by this lexicographic relation on (area descending, original index). -/
def taLe (a b : Nat × Photo) : Bool :=
  decide (area b.2 < area a.2) || (decide (area a.2 = area b.2) && decide (a.1 ≤ b.1))

/-- `taLe` as a relation, for Mathlib's sorting lemmas. -/
def taR (a b : Nat × Photo) : Prop := taLe a b = true

instance : DecidableRel taR := fun a b => inferInstanceAs (Decidable (taLe a b = true))

instance : IsTotal (Nat × Photo) taR := by
  constructor
  intro a b
  simp only [taR, taLe, Bool.or_eq_true, Bool.and_eq_true, decide_eq_true_eq]
  omega

instance : IsTrans (Nat × Photo) taR := by
  constructor
  intro a b c hab hbc
  simp only [taR, taLe, Bool.or_eq_true, Bool.and_eq_true, decide_eq_true_eq] at *
  omega

/-- Tag each list element with its position, starting at `n`. -/
def enumIdx (n : Nat) : List Photo → List (Nat × Photo)
  | [] => []
  | p :: ps => (n, p) :: enumIdx (n + 1) ps

/-- The stable descending-area sort, on index-tagged photos. -/
def sortByAreaDescIdx (l : List Photo) : List (Nat × Photo) :=
  List.insertionSort taR (enumIdx 0 l)

/-- The stable descending-area sort of `searchPhotos`. -/
def sortByAreaDesc (l : List Photo) : List Photo :=
  (sortByAreaDescIdx l).map Prod.snd

/-- The "large" filter of `searchPhotos`: `p.width >= 2000 && p.height >= 1200`. -/
def isLarge (p : Photo) : Bool :=
  decide (2000 ≤ p.width) && decide (1200 ≤ p.height)

/-- The selection policy of `searchPhotos` applied to the parsed curated-API
photo list (src/api/tripadvisor.js lines 244-259): filter to large photos and
sort by descending area; if at least five remain, return the first five;
otherwise sort the entire unfiltered list and backfill, truncating to five. -/
def searchPhotos (photos : List Photo) : List Photo :=
  if 5 ≤ (sortByAreaDesc (photos.filter isLarge)).length then
    (sortByAreaDesc (photos.filter isLarge)).take 5
  else
    (sortByAreaDesc (photos.filter isLarge) ++
      (sortByAreaDesc (photos.filter (fun _ => true))).take
        (Nat.max 5 (sortByAreaDesc (photos.filter isLarge)).length)).take 5

/-- An extracted image descriptor: the normalized source URL and alt text. -/
structure ImageDescriptor where
  src : String
  alt : String
deriving DecidableEq

/-- An img element of the detail page, as the extractor reads it: the `src`
attribute, the lazy-load `data-src` attribute, and the `alt` text.  A missing
attribute is the empty string, which JavaScript's `||` and `!src` treat the
same as an absent one. -/
structure ImgTag where
  src : String
  dataSrc : String
  alt : String
deriving DecidableEq

/-- JavaScript `a || b` on strings: the first operand unless it is empty. -/
def jsOr (a b : String) : String := if strEmpty a then b else a

/-- The `accept` predicate of the extractor: the regex
`/media-cdn\.tripadvisor\.com|dynamic-media-cdn\.tripadvisor\.com/` tested
against the src, i.e. substring containment of either CDN domain string. -/
def acceptSrc (s : String) : Bool :=
  strHas s "media-cdn.tripadvisor.com" || strHas s "dynamic-media-cdn.tripadvisor.com"

/-- What one img tag contributes to the extraction: skip when no source
attribute, when the source matches `/data:image/`, or when `accept` fails;
otherwise the normalized descriptor. -/
def candOf (t : ImgTag) : Option ImageDescriptor :=
  if strEmpty (jsOr t.src t.dataSrc) then none
  else if strHas (jsOr t.src t.dataSrc) "data:image" then none
  else if !acceptSrc (jsOr t.src t.dataSrc) then none
  else some ⟨normalizeSrc (jsOr t.src t.dataSrc), t.alt⟩

/-- One step of the extractor's loop over img tags, accumulating the
insertion-ordered set of descriptors. -/
def collectStep (acc : List ImageDescriptor) (t : ImgTag) : List ImageDescriptor :=
  match candOf t with
  | none => acc
  | some d => insertNew acc d

/-- The insertion-ordered descriptor set built from all img tags. -/
def collectImages (tags : List ImgTag) : List ImageDescriptor :=
  tags.foldl collectStep []

/-- The image-extraction stage of `fetchTripAdvisorImages`
(src/api/tripadvisor.js lines 54-67): collect, deduplicate, then
`.slice(0, max)`. -/
def extractImages (tags : List ImgTag) (max : Nat) : List ImageDescriptor :=
  (collectImages tags).take max

/-- An anchor element of the search-results page: its `href` attribute (empty
when absent) and its visible text. -/
structure Anchor where
  href : String
  text : String
deriving DecidableEq

/-- The path-pattern heuristic on an href: substring containment of
`Attraction`, of `Attraction_Review`, or of `-Activities-`, as the code's
three regex tests. -/
def anchorPatternMatch (href : String) : Bool :=
  strHas href "Attraction" || strHas href "Attraction_Review" || strHas href "-Activities-"

/-- The text heuristic: the anchor's lowercased text contains the lowercased
query. -/
def anchorTextMatch (query : String) (a : Anchor) : Bool :=
  strHas (lowerStr a.text) (lowerStr query)

/-- One step of the candidate-link loop: skip anchors without href, then add
the href once per satisfied heuristic into the insertion-ordered set. -/
def resolverStep (query : String) (acc : List String) (a : Anchor) : List String :=
  if strEmpty a.href then acc
  else
    if anchorTextMatch query a then
      insertNew (if anchorPatternMatch a.href then insertNew acc a.href else acc) a.href
    else
      if anchorPatternMatch a.href then insertNew acc a.href else acc

/-- The candidate-link set collected from the search page's anchors. -/
def candidateLinks (query : String) (anchors : List Anchor) : List String :=
  anchors.foldl (resolverStep query) []

/-- The place-link resolution of `fetchTripAdvisorImages` (src/api/tripadvisor.js
lines 24-40): the first candidate inserted, or none. -/
def resolvePlaceHref (query : String) (anchors : List Anchor) : Option String :=
  (candidateLinks query anchors).head?

/-- Whether an anchor is accepted by either heuristic, as the code applies
them (anchors with an empty href are skipped before both heuristics). -/
def anchorMatches (query : String) (a : Anchor) : Bool :=
  !strEmpty a.href && (anchorPatternMatch a.href || anchorTextMatch query a)

/-- The environment of one scrape run: the anchors of the fetched search page
and the img tags of the detail page a second fetch would return. -/
structure ScrapeWorld where
  searchAnchors : List Anchor
  detailTags : List ImgTag

/-- `fetchTripAdvisorImages` (src/api/tripadvisor.js lines 11-68) as a
function of its query and the fetched documents.  The boolean records whether
the second (detail-page) fetch was performed: when no candidate link is
found, the function returns `[]` without it. -/
def fetchTripAdvisorImages (query : String) (w : ScrapeWorld) (max : Nat) :
    List ImageDescriptor × Bool :=
  match resolvePlaceHref query w.searchAnchors with
  | none => ([], false)
  | some _ => (extractImages w.detailTags max, true)

/-- One imageinfo entry of a wiki page record: the direct file URL. -/
structure WikiImageInfo where
  url : String
deriving DecidableEq

/-- One page record of the image-listing response. -/
structure WikiPage where
  imageinfo : List WikiImageInfo
deriving DecidableEq

/-- `(p.imageinfo && p.imageinfo[0] && p.imageinfo[0].url) || null`. -/
def pageUrl (p : WikiPage) : Option String :=
  match p.imageinfo with
  | [] => none
  | i :: _ => if strEmpty i.url then none else some i.url

/-- The extension filter of the encyclopedia source:
`/\.(jpg|jpeg|png)$/i.test(u)`. -/
def extOk (u : String) : Bool :=
  strEndsWith (lowerStr u) ".jpg" || strEndsWith (lowerStr u) ".jpeg" ||
    strEndsWith (lowerStr u) ".png"

/-- `fetchWikipediaImages` (src/api/tripadvisor.js lines 70-104) as a
function of the top search result's title (none when the full-text search
yields nothing) and the page records of the image listing. -/
def fetchWikipediaImages (searchTop : Option String) (pages : List WikiPage)
    (max : Nat) : List ImageDescriptor :=
  match searchTop with
  | none => []
  | some title =>
    (((pages.filterMap pageUrl).filter extOk).take max).map
      (fun u => ⟨u, title ++ " (Wikipedia)"⟩)

/-- The outcome the environment hands back for one source's run: its value,
or a thrown transport/timeout failure. -/
inductive FetchOutcome where
  | ok (images : List ImageDescriptor)
  | fail
deriving DecidableEq

/-- The environment of one request: the outcome of the scrape source's run
and the outcome the wikipedia source's run would have. -/
structure SourceWorld where
  scrape : FetchOutcome
  wiki : FetchOutcome
deriving DecidableEq

/-- The responses the handler can send: 400 with an error body, 200 with an
image list and the optional `fallback` field, or 500 with an error body. -/
inductive HandlerResponse where
  | badRequest (error : String)
  | ok (images : List ImageDescriptor) (fallback : Option String)
  | serverError (error : String)
deriving DecidableEq

/-- The handler's observable behaviour: its response and which sources it
invoked. -/
structure HandlerTrace where
  response : HandlerResponse
  scrapeInvoked : Bool
  wikiInvoked : Bool
deriving DecidableEq

/-- The value `imgs` holds after the inner try/catch: the scrape result, or
the initial `[]` when the scrape threw. -/
def scrapeImagesOf : FetchOutcome → List ImageDescriptor
  | .ok imgs => imgs
  | .fail => []

/-- The request handler (src/api/tripadvisor.js lines 106-125): trim and
reject blank queries with 400 before any fetch; run the scrape source with
its failure absorbed to `[]`; when the scrape result is empty, run the
wikipedia source and answer with `fallback: 'wikipedia'`; a failure thrown by
the wikipedia source reaches the outer catch and answers 500.  `q` is the
coalesced query value, the empty string when the parameter is missing. -/
def handleRequest (q : String) (w : SourceWorld) : HandlerTrace :=
  if strEmpty (trimStr q) then ⟨.badRequest "Missing q", false, false⟩
  else
    if (scrapeImagesOf w.scrape).isEmpty then
      match w.wiki with
      | .ok wiki => ⟨.ok wiki (some "wikipedia"), true, true⟩
      | .fail => ⟨.serverError "Failed to fetch images", true, true⟩
    else ⟨.ok (scrapeImagesOf w.scrape) none, true, false⟩

/-- Whether the scrape leg's result, failure absorbed to empty, is empty. -/
def scrapeEmpty (w : SourceWorld) : Bool := (scrapeImagesOf w.scrape).isEmpty

/-- The `fallback` field of a response (absent on error responses). -/
def fallbackTag : HandlerResponse → Option String
  | .ok _ fb => fb
  | _ => none

/-- Whether a response is a hard failure (an error status). -/
def isErrorResponse : HandlerResponse → Bool
  | .ok _ _ => false
  | _ => true

/-! ## Helper lemmas about the stable descending-area sort -/

theorem map_snd_enumIdx (n : Nat) (l : List Photo) :
    (enumIdx n l).map Prod.snd = l := by
  induction l generalizing n with
  | nil => rfl
  | cons p ps ih => simp [enumIdx, ih]

theorem length_sortByAreaDesc (l : List Photo) :
    (sortByAreaDesc l).length = l.length := by
  have h := congrArg List.length (map_snd_enumIdx 0 l)
  rw [List.length_map] at h
  simp [sortByAreaDesc, sortByAreaDescIdx, List.length_map, List.length_insertionSort, h]

theorem perm_sortByAreaDesc (l : List Photo) : (sortByAreaDesc l).Perm l := by
  have h : (sortByAreaDescIdx l).Perm (enumIdx 0 l) := List.perm_insertionSort taR _
  have h2 := h.map Prod.snd
  rwa [map_snd_enumIdx] at h2

theorem mem_enumIdx_le {n : Nat} {l : List Photo} {x : Nat × Photo}
    (hx : x ∈ enumIdx n l) : n ≤ x.1 := by
  induction l generalizing n with
  | nil => simp [enumIdx] at hx
  | cons p ps ih =>
    simp only [enumIdx, List.mem_cons] at hx
    rcases hx with rfl | hx
    · exact Nat.le_refl n
    · exact Nat.le_of_succ_le (ih hx)

theorem pairwise_fst_enumIdx (n : Nat) (l : List Photo) :
    (enumIdx n l).Pairwise (fun a b => a.1 < b.1) := by
  induction l generalizing n with
  | nil => exact List.Pairwise.nil
  | cons p ps ih =>
    refine List.Pairwise.cons ?_ (ih (n + 1))
    intro x hx
    exact Nat.lt_of_succ_le (mem_enumIdx_le hx)

theorem pairwise_ne_fst_sorted (l : List Photo) :
    (sortByAreaDescIdx l).Pairwise (fun a b => a.1 ≠ b.1) := by
  have h1 : (enumIdx 0 l).Pairwise (fun a b => a.1 ≠ b.1) :=
    (pairwise_fst_enumIdx 0 l).imp (fun h => Nat.ne_of_lt h)
  have h2 : ((enumIdx 0 l).map Prod.fst).Nodup := List.pairwise_map.mpr h1
  have h3 : ((sortByAreaDescIdx l).map Prod.fst).Nodup :=
    (((List.perm_insertionSort taR (enumIdx 0 l)).map Prod.fst).nodup_iff).mpr h2
  exact List.pairwise_map.mp h3

theorem countP_add_not {α : Type} (p : α → Bool) (l : List α) :
    l.countP p + l.countP (fun a => !p a) = l.length := by
  induction l with
  | nil => rfl
  | cons x xs ih =>
    rcases Bool.eq_false_or_eq_true (p x) with hx | hx <;>
      simp only [List.countP_cons, hx, List.length_cons, Bool.not_false, Bool.not_true,
        if_pos, if_neg, Bool.false_eq_true, Bool.true_eq_false, if_true, if_false] <;>
      omega

/-! ## C1, C2, C10: the curated-photo selection -/

/-- C1: for every curated-API response whose photos list has at least 5
entries (of any resolution), `searchPhotos` returns a list of exactly 5
photos. -/
theorem searchPhotos_returns_exactly_five (photos : List Photo)
    (h : 5 ≤ photos.length) : (searchPhotos photos).length = 5 := by
  have hf : (sortByAreaDesc (photos.filter isLarge)).length
      = (photos.filter isLarge).length := length_sortByAreaDesc _
  have hg : (sortByAreaDesc (photos.filter (fun _ => true))).length = photos.length := by
    rw [length_sortByAreaDesc, List.filter_true]
  have hfl : (photos.filter isLarge).length ≤ photos.length := List.length_filter_le _ _
  unfold searchPhotos
  split
  · rename_i h5
    rw [List.length_take]
    exact min_eq_left h5
  · rename_i h5
    rw [List.length_take, List.length_append, List.length_take, hg]
    simp only [Nat.min_def, Nat.max_def]
    split_ifs <;> omega

theorem searchPhotos_returns_exactly_five_witness :
    (searchPhotos [⟨0, 2000, 1200⟩, ⟨1, 10, 10⟩, ⟨2, 30, 30⟩, ⟨3, 2500, 1300⟩,
      ⟨4, 5, 5⟩]).length = 5 :=
  searchPhotos_returns_exactly_five
    [⟨0, 2000, 1200⟩, ⟨1, 10, 10⟩, ⟨2, 30, 30⟩, ⟨3, 2500, 1300⟩, ⟨4, 5, 5⟩] (by decide)

/-- C2: when at least 5 photos qualify as large (width ≥ 2000 and
height ≥ 1200), `searchPhotos` returns exactly 5 photos, all from the
qualifying subset, equal to the first five of the stable descending-area sort
of the qualifying photos: pairwise the area strictly decreases or, on ties,
the original position strictly increases (the stable-sort tie order), and the
returned areas are descending. -/
theorem searchPhotos_large_selection (photos : List Photo)
    (h : 5 ≤ (photos.filter isLarge).length) :
    (searchPhotos photos).length = 5 ∧
    (∀ p ∈ searchPhotos photos, p ∈ photos.filter isLarge) ∧
    searchPhotos photos = ((sortByAreaDescIdx (photos.filter isLarge)).take 5).map Prod.snd ∧
    ((sortByAreaDescIdx (photos.filter isLarge)).take 5).Pairwise
      (fun a b => area b.2 < area a.2 ∨ (area a.2 = area b.2 ∧ a.1 < b.1)) ∧
    (searchPhotos photos).Pairwise (fun a b => area b ≤ area a) := by
  have hf : (sortByAreaDesc (photos.filter isLarge)).length
      = (photos.filter isLarge).length := length_sortByAreaDesc _
  have hbr : searchPhotos photos = (sortByAreaDesc (photos.filter isLarge)).take 5 := by
    unfold searchPhotos
    rw [if_pos (by omega)]
  have hmap : searchPhotos photos
      = ((sortByAreaDescIdx (photos.filter isLarge)).take 5).map Prod.snd := by
    rw [hbr]
    show ((sortByAreaDescIdx (photos.filter isLarge)).map Prod.snd).take 5 = _
    exact (List.map_take _ _ _).symm
  have hs : (sortByAreaDescIdx (photos.filter isLarge)).Pairwise taR :=
    List.sorted_insertionSort taR _
  have hne := pairwise_ne_fst_sorted (photos.filter isLarge)
  have hlex : (sortByAreaDescIdx (photos.filter isLarge)).Pairwise
      (fun a b => area b.2 < area a.2 ∨ (area a.2 = area b.2 ∧ a.1 < b.1)) := by
    refine (hs.and hne).imp (fun {a b} hab => ?_)
    obtain ⟨hab, hne'⟩ := hab
    simp only [taR, taLe, Bool.or_eq_true, Bool.and_eq_true, decide_eq_true_eq] at hab
    omega
  have hlex_take := hlex.sublist (List.take_sublist 5 _)
  refine ⟨?_, ?_, hmap, hlex_take, ?_⟩
  · rw [hbr, List.length_take]
    exact min_eq_left (by omega)
  · intro p hp
    rw [hbr] at hp
    exact (perm_sortByAreaDesc _).subset (List.take_subset 5 _ hp)
  · rw [hmap]
    refine List.pairwise_map.mpr (hlex_take.imp (fun {a b} hab => ?_))
    rcases hab with h1 | ⟨h1, _⟩
    · exact Nat.le_of_lt h1
    · exact Nat.le_of_eq h1.symm

theorem searchPhotos_large_selection_witness :
    (searchPhotos [⟨0, 2000, 1200⟩, ⟨1, 2100, 1300⟩, ⟨2, 2000, 1200⟩, ⟨3, 3000, 1500⟩,
        ⟨4, 2600, 1400⟩]).length = 5 ∧
    (∀ p ∈ searchPhotos [⟨0, 2000, 1200⟩, ⟨1, 2100, 1300⟩, ⟨2, 2000, 1200⟩, ⟨3, 3000, 1500⟩,
        ⟨4, 2600, 1400⟩],
      p ∈ List.filter isLarge [⟨0, 2000, 1200⟩, ⟨1, 2100, 1300⟩, ⟨2, 2000, 1200⟩,
        ⟨3, 3000, 1500⟩, ⟨4, 2600, 1400⟩]) ∧
    searchPhotos [⟨0, 2000, 1200⟩, ⟨1, 2100, 1300⟩, ⟨2, 2000, 1200⟩, ⟨3, 3000, 1500⟩,
        ⟨4, 2600, 1400⟩]
      = ((sortByAreaDescIdx (List.filter isLarge [⟨0, 2000, 1200⟩, ⟨1, 2100, 1300⟩,
          ⟨2, 2000, 1200⟩, ⟨3, 3000, 1500⟩, ⟨4, 2600, 1400⟩])).take 5).map Prod.snd ∧
    ((sortByAreaDescIdx (List.filter isLarge [⟨0, 2000, 1200⟩, ⟨1, 2100, 1300⟩,
        ⟨2, 2000, 1200⟩, ⟨3, 3000, 1500⟩, ⟨4, 2600, 1400⟩])).take 5).Pairwise
      (fun a b => area b.2 < area a.2 ∨ (area a.2 = area b.2 ∧ a.1 < b.1)) ∧
    (searchPhotos [⟨0, 2000, 1200⟩, ⟨1, 2100, 1300⟩, ⟨2, 2000, 1200⟩, ⟨3, 3000, 1500⟩,
        ⟨4, 2600, 1400⟩]).Pairwise (fun a b => area b ≤ area a) :=
  searchPhotos_large_selection
    [⟨0, 2000, 1200⟩, ⟨1, 2100, 1300⟩, ⟨2, 2000, 1200⟩, ⟨3, 3000, 1500⟩, ⟨4, 2600, 1400⟩]
    (by decide)

/-- C10: when the curated-API response has fewer than 5 photos and at least
one qualifies as large, the returned list contains some photo twice: the
backfill re-sorts the entire unfiltered set and is concatenated after the
qualifying photos without duplicate suppression. -/
theorem searchPhotos_duplicates_on_backfill (photos : List Photo)
    (hn : photos.length < 5) (hk : 1 ≤ (photos.filter isLarge).length) :
    ¬ (searchPhotos photos).Nodup := by
  intro hnd
  have hf : (sortByAreaDesc (photos.filter isLarge)).length
      = (photos.filter isLarge).length := length_sortByAreaDesc _
  have hkn : (photos.filter isLarge).length ≤ photos.length := List.length_filter_le _ _
  have hgperm : (sortByAreaDesc (photos.filter (fun _ => true))).Perm photos := by
    rw [List.filter_true]
    exact perm_sortByAreaDesc _
  have hglen : (sortByAreaDesc (photos.filter (fun _ => true))).length = photos.length :=
    hgperm.length_eq
  have hbr : searchPhotos photos
      = (sortByAreaDesc (photos.filter isLarge) ++
          (sortByAreaDesc (photos.filter (fun _ => true))).take
            (Nat.max 5 (sortByAreaDesc (photos.filter isLarge)).length)).take 5 := by
    unfold searchPhotos
    rw [if_neg (by omega)]
  have htake_all : (sortByAreaDesc (photos.filter (fun _ => true))).take
      (Nat.max 5 (sortByAreaDesc (photos.filter isLarge)).length)
      = sortByAreaDesc (photos.filter (fun _ => true)) :=
    List.take_of_length_le
      (by rw [hglen]; exact le_trans (Nat.le_of_lt hn) (Nat.le_max_left 5 _))
  have hsplit : searchPhotos photos
      = sortByAreaDesc (photos.filter isLarge) ++
        (sortByAreaDesc (photos.filter (fun _ => true))).take
          (5 - (sortByAreaDesc (photos.filter isLarge)).length) := by
    rw [hbr, htake_all, List.take_append_eq_append_take,
      List.take_of_length_le (show (sortByAreaDesc (photos.filter isLarge)).length ≤ 5 by omega)]
  have htlen : ((sortByAreaDesc (photos.filter (fun _ => true))).take
      (5 - (sortByAreaDesc (photos.filter isLarge)).length)).length
      = min (5 - (sortByAreaDesc (photos.filter isLarge)).length) photos.length := by
    rw [List.length_take, hglen]
  have hsub : ((sortByAreaDesc (photos.filter (fun _ => true))).take
      (5 - (sortByAreaDesc (photos.filter isLarge)).length)).Sublist
      (sortByAreaDesc (photos.filter (fun _ => true))) := List.take_sublist _ _
  have hcount_g : (sortByAreaDesc (photos.filter (fun _ => true))).countP isLarge
      = (photos.filter isLarge).length := by
    rw [hgperm.countP_eq, List.countP_eq_length_filter]
  have hex : ∃ x ∈ (sortByAreaDesc (photos.filter (fun _ => true))).take
      (5 - (sortByAreaDesc (photos.filter isLarge)).length), isLarge x = true := by
    by_contra hall
    push_neg at hall
    have hzero : ((sortByAreaDesc (photos.filter (fun _ => true))).take
        (5 - (sortByAreaDesc (photos.filter isLarge)).length)).countP isLarge = 0 :=
      List.countP_eq_zero.mpr (fun a ha hla => hall a ha hla)
    have h1 := countP_add_not isLarge ((sortByAreaDesc (photos.filter (fun _ => true))).take
      (5 - (sortByAreaDesc (photos.filter isLarge)).length))
    have h2 := hsub.countP_le (fun a => !isLarge a)
    have h3 := countP_add_not isLarge (sortByAreaDesc (photos.filter (fun _ => true)))
    rcases Nat.le_total (5 - (sortByAreaDesc (photos.filter isLarge)).length) photos.length
        with hmn | hmn
    · rw [min_eq_left hmn] at htlen
      omega
    · rw [min_eq_right hmn] at htlen
      omega
  obtain ⟨x, hxt, hxl⟩ := hex
  have hxg : x ∈ sortByAreaDesc (photos.filter (fun _ => true)) := hsub.subset hxt
  have hxp : x ∈ photos := hgperm.subset hxg
  have hxf : x ∈ photos.filter isLarge := List.mem_filter.mpr ⟨hxp, hxl⟩
  have hxs : x ∈ sortByAreaDesc (photos.filter isLarge) :=
    (perm_sortByAreaDesc _).symm.subset hxf
  rw [hsplit] at hnd
  obtain ⟨-, -, hdisj⟩ := List.nodup_append.mp hnd
  exact hdisj hxs hxt

theorem searchPhotos_duplicates_on_backfill_witness :
    ¬ (searchPhotos [⟨0, 2000, 1200⟩]).Nodup :=
  searchPhotos_duplicates_on_backfill [⟨0, 2000, 1200⟩] (by decide) (by decide)

/-! ## Helper lemmas about the extractor's insertion-ordered set -/

theorem foldl_collectStep (tags : List ImgTag) (acc : List ImageDescriptor) :
    tags.foldl collectStep acc = (tags.filterMap candOf).foldl insertNew acc := by
  induction tags generalizing acc with
  | nil => rfl
  | cons t ts ih =>
    cases h : candOf t with
    | none => simp only [List.foldl_cons, List.filterMap_cons, h, collectStep, ih]
    | some d => simp only [List.foldl_cons, List.filterMap_cons, h, collectStep, ih]

theorem foldl_insertNew {α : Type} [DecidableEq α] (l acc : List α) :
    l.foldl insertNew acc
      = acc ++ dedupKeepFirst (l.filter (fun y => decide (y ∉ acc))) := by
  induction l generalizing acc with
  | nil => simp [dedupKeepFirst]
  | cons x xs ih =>
    by_cases hx : x ∈ acc
    · have hdec : decide (x ∉ acc) = false := by simp [hx]
      rw [List.foldl_cons, show insertNew acc x = acc from if_pos hx, ih,
        List.filter_cons, hdec]
      simp only [Bool.false_eq_true, if_false]
    · have hdec : decide (x ∉ acc) = true := by simp [hx]
      have hpred : (fun (y : α) => decide (y ∉ acc ++ [x]))
          = fun y => decide (y ≠ x) && decide (y ∉ acc) := by
        funext y
        rw [← Bool.decide_and]
        apply decide_eq_decide.mpr
        simp only [List.mem_append, List.mem_singleton, not_or]
        tauto
      rw [List.foldl_cons, show insertNew acc x = acc ++ [x] from if_neg hx, ih,
        List.filter_cons, hdec]
      simp only [if_true]
      rw [dedupKeepFirst, List.filter_filter, hpred, List.append_assoc,
        List.singleton_append]

theorem collectImages_eq (tags : List ImgTag) :
    collectImages tags = dedupKeepFirst (tags.filterMap candOf) := by
  have hpred : (fun (y : ImageDescriptor) => decide (y ∉ ([] : List ImageDescriptor)))
      = fun _ => true := by
    funext y
    simp
  rw [collectImages, foldl_collectStep, foldl_insertNew, hpred, List.filter_true,
    List.nil_append]

theorem mem_dedupKeepFirst {α : Type} [DecidableEq α] (y : α) (l : List α) :
    y ∈ dedupKeepFirst l ↔ y ∈ l := by
  induction l using dedupKeepFirst.induct with
  | case1 => simp [dedupKeepFirst]
  | case2 x xs ih =>
    rw [dedupKeepFirst]
    simp only [List.mem_cons, ih, List.mem_filter, decide_eq_true_eq, ne_eq]
    constructor
    · rintro (rfl | ⟨h, _⟩)
      · exact Or.inl rfl
      · exact Or.inr h
    · rintro (rfl | h)
      · exact Or.inl rfl
      · by_cases hyx : y = x
        · exact Or.inl hyx
        · exact Or.inr ⟨h, hyx⟩

theorem nodup_dedupKeepFirst {α : Type} [DecidableEq α] (l : List α) :
    (dedupKeepFirst l).Nodup := by
  induction l using dedupKeepFirst.induct with
  | case1 => simp [dedupKeepFirst]
  | case2 x xs ih =>
    rw [dedupKeepFirst]
    refine List.nodup_cons.mpr ⟨?_, ih⟩
    intro hmem
    have hx := (mem_dedupKeepFirst x _).mp hmem
    simp [List.mem_filter] at hx

/-! ## C5, C6: the image extractor -/

/-- C6: for every detail-page document and every max, the extractor's output
is the keep-first deduplication of the accepted, normalized descriptor stream
truncated to max — so it has no duplicate (normalized src, alt) pair,
preserves first-seen order, and has length at most max. -/
theorem extractImages_dedup_cap (tags : List ImgTag) (max : Nat) :
    extractImages tags max = (dedupKeepFirst (tags.filterMap candOf)).take max ∧
    (extractImages tags max).Nodup ∧
    (extractImages tags max).length ≤ max := by
  have heq : extractImages tags max = (dedupKeepFirst (tags.filterMap candOf)).take max := by
    rw [extractImages, collectImages_eq]
  refine ⟨heq, ?_, ?_⟩
  · rw [heq]
    exact (nodup_dedupKeepFirst _).sublist (List.take_sublist _ _)
  · rw [extractImages, List.length_take]
    exact Nat.min_le_left _ _

/-- The remainder of `hay` after the first occurrence of `needle`, when
there is one. -/
def afterFirst (hay needle : List Char) : Option (List Char) :=
  match hay with
  | [] => if needle.isEmpty then some [] else none
  | c :: t =>
    if needle.isPrefixOf (c :: t) then some ((c :: t).drop needle.length)
    else afterFirst t needle

/-- Modelled from the spec: the host of a URL string — the text after the
first `://` up to the next slash.  The source never parses URL hosts; this
definition exists only to state the spec's claim about src hosts. -/
def urlHost (u : String) : String :=
  match afterFirst u.data "://".data with
  | none => ""
  | some rest => String.mk (rest.takeWhile (fun c => c ≠ '/'))

/-- Modelled from the spec: a data-URI source, i.e. a src whose scheme is
`data:`. -/
def isDataUri (u : String) : Bool := "data:".data.isPrefixOf u.data

/-- C5 as the spec states it: every emitted descriptor's src host is one of
the two CDN domains, and no emitted src is a data URI. -/
def ClaimC5 : Prop :=
  ∀ (tags : List ImgTag) (max : Nat) (d : ImageDescriptor),
    d ∈ extractImages tags max →
    (urlHost d.src = "media-cdn.tripadvisor.com" ∨
      urlHost d.src = "dynamic-media-cdn.tripadvisor.com") ∧
    isDataUri d.src = false

/-- C5 fails on the code: the code's checks are substring tests, not host
checks, so the data URI `data:text/media-cdn.tripadvisor.com` — whose host
is not a CDN domain and which is a data URI — is emitted. -/
theorem claimC5_false : ¬ ClaimC5 := by
  intro h
  have hc := h [⟨"data:text/media-cdn.tripadvisor.com", "", ""⟩] 10
    ⟨"data:text/media-cdn.tripadvisor.com", ""⟩ (by decide)
  exact absurd hc.2 (by decide)

/-- C5 (amended): every emitted descriptor is the normalization of a
non-empty candidate src that contains one of the two CDN domain strings as a
substring and does not contain the substring `data:image`. -/
theorem extractImages_src_filters (tags : List ImgTag) (max : Nat)
    (d : ImageDescriptor) (hd : d ∈ extractImages tags max) :
    ∃ src0 : String, acceptSrc src0 = true ∧ strHas src0 "data:image" = false ∧
      strEmpty src0 = false ∧ d.src = normalizeSrc src0 := by
  have hd1 : d ∈ collectImages tags := List.take_subset _ _ hd
  rw [collectImages_eq] at hd1
  have hd2 : d ∈ tags.filterMap candOf := (mem_dedupKeepFirst _ _).mp hd1
  obtain ⟨t, -, hct⟩ := List.mem_filterMap.mp hd2
  simp only [candOf] at hct
  split at hct
  · cases hct
  · split at hct
    · cases hct
    · split at hct
      · cases hct
      · rename_i h1 h2 h3
        simp only [Bool.not_eq_true] at h1 h2
        have h3' : acceptSrc (jsOr t.src t.dataSrc) = true := by
          revert h3
          cases acceptSrc (jsOr t.src t.dataSrc) <;> simp
        injection hct with h4
        subst h4
        exact ⟨jsOr t.src t.dataSrc, h3', h2, h1, rfl⟩

theorem extractImages_src_filters_witness :
    ∃ src0 : String, acceptSrc src0 = true ∧ strHas src0 "data:image" = false ∧
      strEmpty src0 = false ∧
      (ImageDescriptor.mk "https://media-cdn.tripadvisor.com/photo-l/a.jpg" "x").src
        = normalizeSrc src0 :=
  extractImages_src_filters
    [⟨"https://media-cdn.tripadvisor.com/photo-l/a.jpg", "", "x"⟩] 10
    ⟨"https://media-cdn.tripadvisor.com/photo-l/a.jpg", "x"⟩ (by decide)

/-! ## C8: the place-link resolver -/

theorem candidateLinks_nil (query : String) :
    ∀ (anchors : List Anchor), (∀ a ∈ anchors, anchorMatches query a = false) →
      candidateLinks query anchors = [] := by
  intro anchors
  induction anchors with
  | nil => intro _; rfl
  | cons a as ih =>
    intro h
    have ha := h a (List.mem_cons_self a as)
    have hstep : resolverStep query [] a = [] := by
      rcases Bool.eq_false_or_eq_true (strEmpty a.href) with he | he
      · simp [resolverStep, he]
      · have hm : anchorPatternMatch a.href = false ∧ anchorTextMatch query a = false := by
          simp only [anchorMatches, he, Bool.not_false, Bool.true_and,
            Bool.or_eq_false_iff] at ha
          exact ha
        simp [resolverStep, he, hm.1, hm.2]
    show (a :: as).foldl (resolverStep query) [] = []
    rw [List.foldl_cons, hstep]
    exact ih (fun x hx => h x (List.mem_cons_of_mem a hx))

/-- C8: when no anchor of the search page matches either heuristic (the
path patterns on the href, or the anchor text containing the lowercased
query), the resolver returns no candidate and the scrape source returns an
empty list without performing the second (detail-page) fetch. -/
theorem resolver_no_match (query : String) (w : ScrapeWorld) (max : Nat)
    (h : ∀ a ∈ w.searchAnchors, anchorMatches query a = false) :
    resolvePlaceHref query w.searchAnchors = none ∧
    fetchTripAdvisorImages query w max = ([], false) := by
  have hc : candidateLinks query w.searchAnchors = [] := candidateLinks_nil query _ h
  have hr : resolvePlaceHref query w.searchAnchors = none := by
    rw [resolvePlaceHref, hc]
    rfl
  refine ⟨hr, ?_⟩
  simp only [fetchTripAdvisorImages, hr]

theorem resolver_no_match_witness :
    resolvePlaceHref "Eiffel Tower"
      [⟨"", "eiffel tower deals"⟩, ⟨"/Hotels-g187147", "top hotels"⟩] = none ∧
    fetchTripAdvisorImages "Eiffel Tower"
      ⟨[⟨"", "eiffel tower deals"⟩, ⟨"/Hotels-g187147", "top hotels"⟩], []⟩ 10
      = ([], false) :=
  resolver_no_match "Eiffel Tower"
    ⟨[⟨"", "eiffel tower deals"⟩, ⟨"/Hotels-g187147", "top hotels"⟩], []⟩ 10 (by decide)

/-! ## C9: the encyclopedia source -/

/-- C9: every descriptor the encyclopedia source returns has a src whose
extension is jpg, jpeg or png (case-insensitive) and an alt text equal to
the top search result's title followed by " (Wikipedia)"; when the full-text
search yields no result, the source returns the empty list. -/
theorem fetchWikipediaImages_shape (searchTop : Option String) (pages : List WikiPage)
    (max : Nat) (d : ImageDescriptor)
    (hd : d ∈ fetchWikipediaImages searchTop pages max) :
    extOk d.src = true ∧
    (∃ title, searchTop = some title ∧ d.alt = title ++ " (Wikipedia)") ∧
    fetchWikipediaImages none pages max = [] := by
  cases searchTop with
  | none => simp [fetchWikipediaImages] at hd
  | some title =>
    simp only [fetchWikipediaImages] at hd
    obtain ⟨u, hu, heq⟩ := List.mem_map.mp hd
    subst heq
    have hu2 := List.take_subset _ _ hu
    have hext := (List.mem_filter.mp hu2).2
    exact ⟨hext, ⟨title, rfl, rfl⟩, rfl⟩

theorem fetchWikipediaImages_shape_witness :
    extOk (ImageDescriptor.mk "https://upload.wikimedia.org/Tour_Eiffel.JPG"
      "Eiffel Tower (Wikipedia)").src = true ∧
    (∃ title, (some "Eiffel Tower" : Option String) = some title ∧
      (ImageDescriptor.mk "https://upload.wikimedia.org/Tour_Eiffel.JPG"
        "Eiffel Tower (Wikipedia)").alt = title ++ " (Wikipedia)") ∧
    fetchWikipediaImages none [⟨[⟨"https://upload.wikimedia.org/Tour_Eiffel.JPG"⟩]⟩] 10
      = [] :=
  fetchWikipediaImages_shape (some "Eiffel Tower")
    [⟨[⟨"https://upload.wikimedia.org/Tour_Eiffel.JPG"⟩]⟩] 10
    ⟨"https://upload.wikimedia.org/Tour_Eiffel.JPG", "Eiffel Tower (Wikipedia)"⟩
    (by decide)

/-! ## C3, C4, C7: the request handler -/

/-- C7: a request whose q parameter is missing, empty, or whitespace-only
(trims to empty) gets the 400 bad-input response with an error body, and no
source is invoked (no network call is made). -/
theorem blank_query_rejected (q : String) (w : SourceWorld)
    (hq : strEmpty (trimStr q) = true) :
    (handleRequest q w).response = HandlerResponse.badRequest "Missing q" ∧
    (handleRequest q w).scrapeInvoked = false ∧
    (handleRequest q w).wikiInvoked = false := by
  simp [handleRequest, hq]

theorem blank_query_rejected_witness :
    (handleRequest "   " ⟨.ok [⟨"s", "a"⟩], .ok []⟩).response
      = HandlerResponse.badRequest "Missing q" ∧
    (handleRequest "   " ⟨.ok [⟨"s", "a"⟩], .ok []⟩).scrapeInvoked = false ∧
    (handleRequest "   " ⟨.ok [⟨"s", "a"⟩], .ok []⟩).wikiInvoked = false :=
  blank_query_rejected "   " ⟨.ok [⟨"s", "a"⟩], .ok []⟩ (by decide)

/-- Modelled from the spec: the provenance the spec assigns to the produced
results — "scrape" when the scrape result is non-empty, "encyclopedia" when
the fallback is used and produces images, "none" when both sources produce
nothing. -/
def specProvenance (scrapeImgs wikiImgs : List ImageDescriptor) : String :=
  if !scrapeImgs.isEmpty then "scrape"
  else if !wikiImgs.isEmpty then "encyclopedia"
  else "none"

/-- C3 as the spec states it: some tagging of the responses realizes the
spec's three-valued provenance — the three values are distinguishable, and
the response's fallback field encodes the provenance of the produced
results. -/
def ClaimC3 : Prop :=
  ∃ tagOf : String → Option String,
    (tagOf "scrape" ≠ tagOf "encyclopedia" ∧ tagOf "encyclopedia" ≠ tagOf "none" ∧
      tagOf "scrape" ≠ tagOf "none") ∧
    ∀ (q : String) (scrapeImgs wikiImgs : List ImageDescriptor),
      strEmpty (trimStr q) = false →
      fallbackTag (handleRequest q ⟨.ok scrapeImgs, .ok wikiImgs⟩).response
        = tagOf (specProvenance scrapeImgs wikiImgs)

/-- C3 fails on the code: when both sources produce nothing the response
carries the same tag (`fallback: 'wikipedia'`) as when the fallback produces
images, so no distinct "none" provenance exists. -/
theorem claimC3_false : ¬ ClaimC3 := by
  rintro ⟨tagOf, ⟨-, hen, -⟩, hall⟩
  have e1 := hall "paris" [] [⟨"u", "a"⟩] (by decide)
  have e2 := hall "paris" [] [] (by decide)
  rw [show specProvenance [] [⟨"u", "a"⟩] = "encyclopedia" from by decide] at e1
  rw [show specProvenance [] [] = "none" from by decide] at e2
  rw [show fallbackTag (handleRequest "paris" ⟨.ok [], .ok [⟨"u", "a"⟩]⟩).response
      = some "wikipedia" from by decide] at e1
  rw [show fallbackTag (handleRequest "paris" ⟨.ok [], .ok []⟩).response
      = some "wikipedia" from by decide] at e2
  exact hen (e1.symm.trans e2)

/-- C3 (amended): for every non-empty query, the encyclopedia source is
invoked iff the scrape result is empty (a scrape failure counting as empty);
the response's fallback tag is always absent or `wikipedia`; and on
successful responses the tag is `wikipedia` exactly when the fallback was
used — including when both sources produce nothing, so no separate "none"
value exists. -/
theorem handleRequest_provenance (q : String) (w : SourceWorld)
    (hq : strEmpty (trimStr q) = false) :
    ((handleRequest q w).wikiInvoked = scrapeEmpty w) ∧
    (fallbackTag (handleRequest q w).response = none ∨
      fallbackTag (handleRequest q w).response = some "wikipedia") ∧
    (isErrorResponse (handleRequest q w).response = false →
      (fallbackTag (handleRequest q w).response = some "wikipedia" ↔
        scrapeEmpty w = true)) := by
  obtain ⟨s, wk⟩ := w
  cases hse : (scrapeImagesOf s).isEmpty with
  | true =>
    cases wk with
    | ok wimgs => simp [handleRequest, hq, hse, scrapeEmpty, fallbackTag, isErrorResponse]
    | fail => simp [handleRequest, hq, hse, scrapeEmpty, fallbackTag, isErrorResponse]
  | false =>
    simp [handleRequest, hq, hse, scrapeEmpty, fallbackTag, isErrorResponse]

theorem handleRequest_provenance_witness :
    ((handleRequest "paris" ⟨.ok [], .ok []⟩).wikiInvoked
      = scrapeEmpty ⟨.ok [], .ok []⟩) ∧
    (fallbackTag (handleRequest "paris" ⟨.ok [], .ok []⟩).response = none ∨
      fallbackTag (handleRequest "paris" ⟨.ok [], .ok []⟩).response = some "wikipedia") ∧
    (isErrorResponse (handleRequest "paris" ⟨.ok [], .ok []⟩).response = false →
      (fallbackTag (handleRequest "paris" ⟨.ok [], .ok []⟩).response = some "wikipedia" ↔
        scrapeEmpty ⟨.ok [], .ok []⟩ = true)) :=
  handleRequest_provenance "paris" ⟨.ok [], .ok []⟩ (by decide)

/-- C4 as the spec states it: a transport or timeout failure on a
non-essential source (the scrape leg or the encyclopedia leg) is never
surfaced to the end user as an error response. -/
def ClaimC4 : Prop :=
  ∀ (q : String) (w : SourceWorld), strEmpty (trimStr q) = false →
    (w.scrape = FetchOutcome.fail ∨ w.wiki = FetchOutcome.fail) →
    isErrorResponse (handleRequest q w).response = false

/-- C4 fails on the code: when the scrape result is empty and the wikipedia
fetch throws, the outer catch answers a 500 server-error response. -/
theorem claimC4_false : ¬ ClaimC4 := by
  intro h
  have hc := h "paris" ⟨.ok [], .fail⟩ (by decide) (Or.inr rfl)
  exact absurd hc (by decide)

/-- C4 (amended): a scrape-leg failure is fully absorbed — the handler
behaves exactly as if the scrape produced an empty result, invokes the
fallback tier, and answers success when the wikipedia leg succeeds; but a
wikipedia-leg failure, once invoked, surfaces as the 500 server-error
response. -/
theorem scrape_failure_absorbed (q : String) (wk : FetchOutcome)
    (imgs : List ImageDescriptor) (hq : strEmpty (trimStr q) = false) :
    handleRequest q ⟨FetchOutcome.fail, wk⟩ = handleRequest q ⟨FetchOutcome.ok [], wk⟩ ∧
    (handleRequest q ⟨FetchOutcome.fail, wk⟩).wikiInvoked = true ∧
    (handleRequest q ⟨FetchOutcome.fail, FetchOutcome.ok imgs⟩).response
      = HandlerResponse.ok imgs (some "wikipedia") ∧
    (handleRequest q ⟨FetchOutcome.fail, FetchOutcome.fail⟩).response
      = HandlerResponse.serverError "Failed to fetch images" := by
  cases wk with
  | ok wimgs => simp [handleRequest, hq, scrapeImagesOf]
  | fail => simp [handleRequest, hq, scrapeImagesOf]

theorem scrape_failure_absorbed_witness :
    handleRequest "paris" ⟨FetchOutcome.fail, FetchOutcome.ok []⟩
      = handleRequest "paris" ⟨FetchOutcome.ok [], FetchOutcome.ok []⟩ ∧
    (handleRequest "paris" ⟨FetchOutcome.fail, FetchOutcome.ok []⟩).wikiInvoked = true ∧
    (handleRequest "paris" ⟨FetchOutcome.fail, FetchOutcome.ok []⟩).response
      = HandlerResponse.ok [] (some "wikipedia") ∧
    (handleRequest "paris" ⟨FetchOutcome.fail, FetchOutcome.fail⟩).response
      = HandlerResponse.serverError "Failed to fetch images" :=
  scrape_failure_absorbed "paris" (FetchOutcome.ok []) [] (by decide)
